import Mathlib

/-!
Verification of the DeskSetups Shop API (src/main.py, src/schemas.py).

The repository is a small catalog-and-order HTTP service over a document
store.  This file shallowly embeds its data model and operations:

* documents are association lists of field name to `Value`;
* the document store is a `DB` record holding the product and order
  collections; a disabled store is `Option.none`;
* each endpoint of src/main.py becomes a pure Lean function returning an
  `Except HTTPException` result paired with the resulting store state;
* timestamps are modelled as integers and their ISO-8601 rendering as an
  abstract injective rendering function;
* floating-point prices are modelled as integers: the program never
  computes with a price, it only copies and compares it with zero.
-/

set_option maxHeartbeats 1000000
set_option autoImplicit false

deriving instance DecidableEq for Except

/-- A BSON-like field value: internal object identifiers, timestamps
(`datetime` / `date`), strings, numbers, booleans and null. -/
inductive Value where
  | oid (s : String)
  | dt (t : Int)
  | str (s : String)
  | num (n : Int)
  | bool (b : Bool)
  | null
deriving DecidableEq

/-- A stored document: an association list from field names to values,
with python-dict semantics given by the operations below. -/
abbrev Doc := List (String × Value)

/-- Dict lookup: the value at key `k`, if present. -/
def Doc.get (k : String) : Doc → Option Value
  | [] => none
  | (k2, v) :: rest => if k2 = k then some v else Doc.get k rest

/-- Dict assignment `d[k] = v`: replaces the value at an existing key,
otherwise appends the new binding at the end (python insertion order). -/
def Doc.set (k : String) (v : Value) : Doc → Doc
  | [] => [(k, v)]
  | (k2, v2) :: rest =>
      if k2 = k then (k2, v) :: rest else (k2, v2) :: Doc.set k v rest

/-- Dict deletion `del d[k]`. -/
def Doc.erase (k : String) : Doc → Doc
  | [] => []
  | (k2, v2) :: rest =>
      if k2 = k then Doc.erase k rest else (k2, v2) :: Doc.erase k rest

/-- The field names of a document, in order. -/
def Doc.keys (d : Doc) : List String := d.map Prod.fst

/-- Abstract injective rendering of a timestamp as ISO-8601 text,
modelling `datetime.isoformat()`. -/
def isoformat (t : Int) : String := "iso-8601:" ++ toString t

/-- The per-field conversion applied by the serialization loop of
`serialize_doc` (src/main.py lines 46-52): a `datetime`/`date` value
becomes its ISO-8601 text, every other value is left alone. -/
def convVal : Value → Value
  | Value.dt t => Value.str (isoformat t)
  | v => v

/-- Whether a value is a timestamp (`datetime`/`date`). -/
def isDt : Value → Bool
  | Value.dt _ => true
  | _ => false

/-- Whether a value is an internal `ObjectId`. -/
def isOid : Value → Bool
  | Value.oid _ => true
  | _ => false

/-- `serialize_doc` (src/main.py lines 37-53): on a falsy (empty) document
return it unchanged; otherwise, working on a copy, if the `_id` field holds
an `ObjectId` then set `id` to its string form and delete `_id`; finally
convert every `datetime`/`date` field to ISO-8601 text. -/
def serialize_doc (doc : Doc) : Doc :=
  if doc = [] then doc
  else
    let doc2 :=
      match Doc.get "_id" doc with
      | some (Value.oid s) => Doc.erase "_id" (Doc.set "id" (Value.str s) doc)
      | _ => doc
    doc2.map (fun kv => (kv.1, convVal kv.2))

/-! ### Association-list lemmas for the dict operations -/

theorem Doc.get_set_same (k : String) (v : Value) (d : Doc) :
    Doc.get k (Doc.set k v d) = some v := by
  induction d with
  | nil => simp [Doc.set, Doc.get]
  | cons kv rest ih =>
      by_cases h : kv.1 = k
      · simp [Doc.set, Doc.get, h]
      · simp [Doc.set, Doc.get, h, ih]

theorem Doc.get_set_other (k k2 : String) (v : Value) (d : Doc) (h : k2 ≠ k) :
    Doc.get k2 (Doc.set k v d) = Doc.get k2 d := by
  have h2 : ¬ k = k2 := fun e => h e.symm
  induction d with
  | nil => simp [Doc.set, Doc.get, h2]
  | cons kv rest ih =>
      by_cases hk : kv.1 = k
      · simp [Doc.set, Doc.get, hk, h2, h]
      · by_cases hk2 : kv.1 = k2
        · simp [Doc.set, Doc.get, hk, hk2, h2, h]
        · simp [Doc.set, Doc.get, hk, hk2, ih]

theorem Doc.get_erase_same (k : String) (d : Doc) :
    Doc.get k (Doc.erase k d) = none := by
  induction d with
  | nil => simp [Doc.erase, Doc.get]
  | cons kv rest ih =>
      by_cases h : kv.1 = k
      · simp [Doc.erase, Doc.get, h, ih]
      · simp [Doc.erase, Doc.get, h, ih]

theorem Doc.get_erase_other (k k2 : String) (d : Doc) (h : k2 ≠ k) :
    Doc.get k2 (Doc.erase k d) = Doc.get k2 d := by
  have h2 : ¬ k = k2 := fun e => h e.symm
  induction d with
  | nil => simp [Doc.erase, Doc.get]
  | cons kv rest ih =>
      by_cases hk : kv.1 = k
      · simp [Doc.erase, Doc.get, hk, h2, h, ih]
      · by_cases hk2 : kv.1 = k2
        · simp [Doc.erase, Doc.get, hk, hk2, h2, h]
        · simp [Doc.erase, Doc.get, hk, hk2, ih]

theorem Doc.get_map_conv (k : String) (d : Doc) :
    Doc.get k (d.map (fun kv => (kv.1, convVal kv.2))) =
      Option.map convVal (Doc.get k d) := by
  induction d with
  | nil => simp [Doc.get]
  | cons kv rest ih =>
      by_cases h : kv.1 = k
      · simp [Doc.get, h]
      · simp [Doc.get, h, ih]

theorem Doc.keys_map_conv (d : Doc) :
    Doc.keys (d.map (fun kv => (kv.1, convVal kv.2))) = Doc.keys d := by
  induction d with
  | nil => rfl
  | cons kv rest ih => simp_all [Doc.keys]

/-! ### The document store -/

/-- An order line item (`OrderItem` in src/main.py lines 57-61):
`quantity` carries the field constraint `ge=1` checked by
`validateCreateOrder`. -/
structure OrderItemPayload where
  product_id : String
  title : String
  price : Int
  quantity : Int
deriving DecidableEq

/-- Customer data (`CustomerInfo` in src/main.py lines 63-66). -/
structure CustomerPayload where
  name : String
  email : String
  address : Option String
deriving DecidableEq

/-- An inbound order payload (`CreateOrder` in src/main.py lines 68-71).
The `items` field is a plain list: the model declares no minimum length
for it. -/
structure CreateOrderPayload where
  items : List OrderItemPayload
  customer : CustomerPayload
  note : Option String
deriving DecidableEq

/-- The two collections of the document store.  A disabled store
(missing configuration) is modelled as `Option.none` around `DB`.
Order documents are stored as the generated identifier paired with the
dumped payload (see `create_document`). -/
structure DB where
  product : List Doc
  order : List (String × CreateOrderPayload)
deriving DecidableEq

/-- An HTTP error raised by an endpoint (`HTTPException` in FastAPI):
status code and detail message. -/
structure HTTPException where
  status : Nat
  detail : String
deriving DecidableEq

/-- Lowercasing of a string, modelling python `str.lower()` on the
ASCII text this service handles. -/
def lowerStr (s : String) : String := String.mk (s.data.map Char.toLower)

/-! ### Seed loader -/

/-- `SAMPLE_PRODUCTS` (src/main.py lines 114-155): the fixed in-memory
catalog of five sample products. -/
def SAMPLE_PRODUCTS : List Doc :=
  [ [ ("title", Value.str "Retro Gamer Setup"),
      ("description", Value.str "Pink CRT monitor, mechanical keyboard, RGB mouse, and neon desk mat."),
      ("price", Value.num 699),
      ("category", Value.str "gaming"),
      ("in_stock", Value.bool true),
      ("image", Value.str "https://images.unsplash.com/photo-1603484477859-abe6a73f9360?q=80&w=1400&auto=format&fit=crop") ],
    [ ("title", Value.str "Deep Work Productivity"),
      ("description", Value.str "Dual 27\" IPS monitors, ergonomic chair, and silent peripherals."),
      ("price", Value.num 1199),
      ("category", Value.str "productivity"),
      ("in_stock", Value.bool true),
      ("image", Value.str "https://images.unsplash.com/photo-1559163499-413811fb2344?q=80&w=1400&auto=format&fit=crop") ],
    [ ("title", Value.str "Creator Studio"),
      ("description", Value.str "Ultra-wide 34\" display, studio speakers, and adjustable boom arm."),
      ("price", Value.num 1899),
      ("category", Value.str "creator"),
      ("in_stock", Value.bool true),
      ("image", Value.str "https://images.unsplash.com/photo-1518779578993-ec3579fee39f?q=80&w=1400&auto=format&fit=crop") ],
    [ ("title", Value.str "Minimal Zen Desk"),
      ("description", Value.str "Clean aluminum monitor stand, wireless keyboard, and warm lighting."),
      ("price", Value.num 899),
      ("category", Value.str "minimal"),
      ("in_stock", Value.bool true),
      ("image", Value.str "https://images.unsplash.com/photo-1519389950473-47ba0277781c?q=80&w=1400&auto=format&fit=crop") ],
    [ ("title", Value.str "Streamer Pro Rig"),
      ("description", Value.str "High FPS monitor, condenser mic, key light, and capture card."),
      ("price", Value.num 1599),
      ("category", Value.str "streaming"),
      ("in_stock", Value.bool true),
      ("image", Value.str "https://images.unsplash.com/photo-1498050108023-c5249f4df085?q=80&w=1400&auto=format&fit=crop") ] ]

/-- Validation of one catalog entry against the `Product` schema
(src/schemas.py lines 5-11), as invoked by `ensure_seed_data`
(src/main.py line 168) on the projection to the keys title,
description, price, category, in_stock.  A missing key (python
`KeyError`) and a validation error both abort the seed, so both are
`false` here; the only value constraint is `price >= 0`. -/
def validateSampleProduct (p : Doc) : Bool :=
  (match Doc.get "title" p with
   | some (Value.str _) => true
   | _ => false) &&
  (match Doc.get "description" p with
   | some (Value.str _) => true
   | some Value.null => true
   | _ => false) &&
  (match Doc.get "price" p with
   | some (Value.num n) => decide (0 ≤ n)
   | _ => false) &&
  (match Doc.get "category" p with
   | some (Value.str _) => true
   | _ => false) &&
  (match Doc.get "in_stock" p with
   | some (Value.bool _) => true
   | _ => false)

/-- Attaching the server-assigned timestamps to a catalog entry
(src/main.py lines 169-174): `created_at` and `updated_at` are both set
to the current time on a copy of the entry. -/
def attachMeta (now : Int) (p : Doc) : Doc :=
  Doc.set "updated_at" (Value.dt now) (Doc.set "created_at" (Value.dt now) p)

/-- The state transformation of `ensure_seed_data` (src/main.py lines
158-178) on an enabled store: if the product collection is empty,
validate every catalog entry (a failure raises, is swallowed by the
surrounding try/except, and nothing is inserted since validation of the
whole batch runs before the single `insert_many`), attach timestamps and
insert the batch; otherwise do nothing. -/
def seedDB (d : DB) (now : Int) : DB :=
  if d.product.length = 0 then
    if SAMPLE_PRODUCTS.all validateSampleProduct then
      DB.mk (d.product ++ SAMPLE_PRODUCTS.map (attachMeta now)) d.order
    else d
  else d

/-- `ensure_seed_data` (src/main.py lines 158-178): on a disabled store
return immediately, otherwise apply the seed step. -/
def ensure_seed_data (dbo : Option DB) (now : Int) : Option DB :=
  Option.map (fun d => seedDB d now) dbo

/-! ### Product listing -/

/-- The `created_at` timestamp of a stored document, used as the sort
key of the product listing (`.sort("created_at", -1)`); documents
without one sort as the epoch. -/
def createdAtOf (d : Doc) : Int :=
  match Doc.get "created_at" d with
  | some (Value.dt t) => t
  | _ => 0

/-- The effective category filter built by `list_products` (src/main.py
lines 188-189): `if category and category.lower() != "all"` adds an
equality filter on the lowercased category, so a missing, empty or
(case-insensitively) "all" category means no filter. -/
def categoryFilter : Option String → Option String
  | none => none
  | some c =>
      if c = "" then none
      else if lowerStr c = "all" then none
      else some (lowerStr c)

/-- Modelled from the spec (external collaborator): the document store's
unanchored regular-expression match at the head of the text, restricted
to the constructs the service can send in a pattern position that this
development reasons about: literal characters and the dot wildcard,
which matches any single character. -/
def regexMatchAt : List Char → List Char → Bool
  | [], _ => true
  | _ :: _, [] => false
  | p :: ps, t :: ts => (p == '.' || p == t) && regexMatchAt ps ts

/-- Modelled from the spec (external collaborator): the document store's
unanchored regular-expression search: the pattern matches the text if it
matches at some position. -/
def regexSearch (pat : List Char) : List Char → Bool
  | [] => regexMatchAt pat []
  | c :: ts => regexMatchAt pat (c :: ts) || regexSearch pat ts

/-- Whether the regular-expression condition that `list_products` puts on
one field (src/main.py lines 192-195) holds of a document: the field is
a string matched case-insensitively (options "i") by the pattern `q`. -/
def fieldRegexMatch (k : String) (q : String) (d : Doc) : Bool :=
  match Doc.get k d with
  | some (Value.str s) => regexSearch (lowerStr q).data (lowerStr s).data
  | _ => false

/-- The `$or` clause of the product query (src/main.py lines 192-195):
the pattern `q` matches the title or the description. -/
def qMatches (q : String) (d : Doc) : Bool :=
  fieldRegexMatch "title" q d || fieldRegexMatch "description" q d

/-- Whether a document satisfies the whole find filter built by
`list_products`: the optional category equality and the optional `$or`
regular-expression clause. -/
def docMatches (cat : Option String) (q : Option String) (d : Doc) : Bool :=
  (match cat with
   | none => true
   | some c =>
       match Doc.get "category" d with
       | some (Value.str s) => s = c
       | _ => false) &&
  (match q with
   | none => true
   | some qq => qMatches qq d)

/-- `list_products` (src/main.py lines 181-199): run the seed step; on a
disabled store raise 500; otherwise build the query from the optional
`category` and `q` parameters (an empty `q` is falsy and adds no
clause), find the matching products sorted by `created_at` descending,
and return them serialized, together with the resulting store state. -/
def list_products (dbo : Option DB) (category q : Option String) (now : Int) :
    Except HTTPException (List Doc) × Option DB :=
  match ensure_seed_data dbo now with
  | none => (Except.error ⟨500, "Database not configured"⟩, none)
  | some d =>
      let catF := categoryFilter category
      let qF := match q with
        | none => none
        | some s => if s = "" then none else some s
      let matched := d.product.filter (fun doc => docMatches catF qF doc)
      let sorted :=
        List.insertionSort (fun a b => createdAtOf b ≤ createdAtOf a) matched
      (Except.ok (sorted.map serialize_doc), some d)

/-! ### Category listing -/

/-- Lexicographic comparison of character lists by code point, the
order python `sorted` uses on strings. -/
def charListLe : List Char → List Char → Bool
  | [], _ => true
  | _ :: _, [] => false
  | a :: as, b :: bs =>
      decide (a.toNat < b.toNat) || (a.toNat == b.toNat && charListLe as bs)

/-- String comparison by code point, modelling python string ordering. -/
def strLe (a b : String) : Bool := charListLe a.data b.data

/-- `strLe` as a relation, for use with `List.insertionSort`. -/
def strLeRel (a b : String) : Prop := strLe a b = true

instance : DecidableRel strLeRel := fun a b => instDecidableEqBool (strLe a b) true

instance : IsTotal String strLeRel where
  total a b := by
    unfold strLeRel strLe
    generalize a.data = as
    generalize b.data = bs
    induction as generalizing bs with
    | nil => left; rfl
    | cons x xs ih =>
        cases bs with
        | nil => right; rfl
        | cons y ys =>
            rcases Nat.lt_trichotomy x.toNat y.toNat with h | h | h
            · left; simp [charListLe, h]
            · rcases ih ys with h2 | h2
              · left; simp [charListLe, h, h2]
              · right; simp [charListLe, h.symm, h2]
            · right; simp [charListLe, h]

instance : IsTrans String strLeRel where
  trans a b c := by
    unfold strLeRel strLe
    generalize a.data = as
    generalize b.data = bs
    generalize c.data = cs
    intro hab hbc
    induction as generalizing bs cs with
    | nil => rfl
    | cons x xs ih =>
        cases bs with
        | nil => simp [charListLe] at hab
        | cons y ys =>
            cases cs with
            | nil => simp [charListLe] at hbc
            | cons z zs =>
                simp [charListLe] at hab hbc ⊢
                rcases hab with h1 | ⟨h1, h1r⟩ <;> rcases hbc with h2 | ⟨h2, h2r⟩
                · exact Or.inl (Nat.lt_trans h1 h2)
                · exact Or.inl (h2 ▸ h1)
                · exact Or.inl (h1 ▸ h2)
                · exact Or.inr ⟨h1.trans h2, ih _ _ h1r h2r⟩

/-- The distinct category values of the product collection, modelling
the store's `distinct("category")`: the string values of the `category`
field with duplicates removed. -/
def distinctCategories (docs : List Doc) : List String :=
  List.dedup (docs.filterMap (fun d =>
    match Doc.get "category" d with
    | some (Value.str s) => some s
    | _ => none))

/-- `list_categories` (src/main.py lines 202-209): run the seed step; on
a disabled store raise 500; otherwise return the sorted distinct stored
categories prefixed with the literal "all", with the resulting store
state. -/
def list_categories (dbo : Option DB) (now : Int) :
    Except HTTPException (List String) × Option DB :=
  match ensure_seed_data dbo now with
  | none => (Except.error ⟨500, "Database not configured"⟩, none)
  | some d =>
      let cats := List.insertionSort strLeRel (distinctCategories d.product)
      (Except.ok ("all" :: cats), some d)

/-! ### Order creation -/

/-- Modelled from the spec: the document-store adapter operation
`create_document` imported from database.py, which is not under src/
("insert one, return generated id": inserts a document into the named
collection and returns the store-generated unique identifier as an
opaque string).  Only the order collection is written through it here,
so it is specialized to that collection, storing the dumped payload
under a fresh opaque identifier. -/
def create_document (d : DB) (payload : CreateOrderPayload) : String × DB :=
  let genId := "oid-" ++ toString d.order.length
  (genId, DB.mk d.product (d.order ++ [(genId, payload)]))

/-- The success body of the order endpoint (`OrderOut`,
src/main.py lines 73-74). -/
structure OrderOut where
  id : String
deriving DecidableEq

/-- `create_order` (src/main.py lines 212-221): on a disabled store
raise 500; on an empty items list raise 400 before any store write;
otherwise dump the payload, insert it through `create_document` and
return the generated identifier.  The function returns the endpoint
outcome together with the resulting store state. -/
def create_order (dbo : Option DB) (payload : CreateOrderPayload) :
    Except HTTPException OrderOut × Option DB :=
  match dbo with
  | none => (Except.error ⟨500, "Database not configured"⟩, none)
  | some d =>
      if payload.items = [] then
        (Except.error ⟨400, "Order must contain at least one item"⟩, some d)
      else
        let r := create_document d payload
        (Except.ok ⟨r.1⟩, some r.2)

/-! ### Schema validation of the order payload -/

/-- Splitting of a character list at every separator character,
modelling python str.split with an explicit separator. -/
def splitChars (p : Char → Bool) : List Char → List (List Char)
  | [] => [[]]
  | c :: cs =>
      if p c then [] :: splitChars p cs
      else
        match splitChars p cs with
        | [] => [[c]]
        | g :: gs => (c :: g) :: gs

/-- Modelled from the spec: pydantic's `EmailStr` validator, library
code outside src/ ("email must match email-address syntax"): one "@"
separating a nonempty local part from a domain of at least two nonempty
dot-separated labels. -/
def isEmailStr (s : String) : Bool :=
  match splitChars (fun c => c = '@') s.data with
  | [lp, domain] =>
      !lp.isEmpty && !domain.isEmpty &&
      (let parts := splitChars (fun c => c = '.') domain
       decide (2 ≤ parts.length) && parts.all (fun t => !t.isEmpty))
  | _ => false

/-- Pydantic validation of a `CreateOrder` payload (src/main.py lines
57-71, mirrored by `Order` in src/schemas.py lines 13-27), as performed
by the framework before the handler runs: every item quantity is at
least 1 (`Field(ge=1)`) and the customer email is a valid address.  The
`items` field is `List[OrderItem]` with no minimum-length constraint,
so no condition on the number of items appears here. -/
def validateCreateOrder (p : CreateOrderPayload) : Bool :=
  p.items.all (fun i => decide (1 ≤ i.quantity)) && isEmailStr p.customer.email

/-! ### Diagnostics -/

/-- The store as seen by the diagnostics endpoint: either `db is None`,
or a connection with an optional name attribute and the outcome of
`list_collection_names()` (a collection-name list, or an error with its
message). -/
inductive DiagDB where
  | disabled
  | conn (name : Option String) (colls : Except String (List String))

/-- The diagnostics response body (src/main.py lines 84-91). -/
structure DiagResponse where
  backend : String
  database : String
  database_url : Option String
  database_name : Option String
  connection_status : String
  collections : List String
deriving DecidableEq

/-- Truncation of an error message, modelling the python slice used at
src/main.py lines 104 and 108 (`str(e)[:80]`). -/
def strTake (n : Nat) (s : String) : String := String.mk (s.data.take n)

/-- `test_database` (src/main.py lines 82-110): builds the diagnostics
response.  Every failure path is absorbed: a disabled store and a
failing `list_collection_names()` call are both rendered as descriptive
strings in the body, the latter with the error text truncated to 80
characters; the endpoint never raises, so its result is always
`Except.ok` (HTTP 200). -/
def test_database (urlSet : Bool) (dbs : DiagDB) :
    Except HTTPException DiagResponse :=
  match dbs with
  | DiagDB.disabled =>
      Except.ok
        ⟨"✅ Running", "⚠️  Available but not initialized", none, none,
          "Not Connected", []⟩
  | DiagDB.conn name colls =>
      let urlVal := if urlSet then "✅ Set" else "❌ Not Set"
      let dbName := match name with
        | some n => n
        | none => "✅ Connected"
      match colls with
      | Except.ok cs =>
          Except.ok
            ⟨"✅ Running", "✅ Connected & Working", some urlVal, some dbName,
              "Connected", cs.take 10⟩
      | Except.error e =>
          Except.ok
            ⟨"✅ Running", "⚠️  Connected but Error: " ++ strTake 80 e,
              some urlVal, some dbName, "Connected", []⟩

/-! ### The spec's reading of the text search: literal substring -/

/-- Literal character-list comparison at the head of the text. -/
def startsWithChars : List Char → List Char → Bool
  | [], _ => true
  | _ :: _, [] => false
  | p :: ps, t :: ts => (p == t) && startsWithChars ps ts

/-- Literal substring containment of character lists. -/
def hasSubstrChars (pat : List Char) : List Char → Bool
  | [] => startsWithChars pat []
  | c :: ts => startsWithChars pat (c :: ts) || hasSubstrChars pat ts

/-- Following the spec's words, for comparison with `fieldRegexMatch`:
"q performs substring match over title/description", read on one field
as case-insensitive literal substring containment. -/
def fieldSubstrSpec (k q : String) (d : Doc) : Bool :=
  match Doc.get k d with
  | some (Value.str s) => hasSubstrChars (lowerStr q).data (lowerStr s).data
  | _ => false

/-- Following the spec's words, for comparison with `qMatches`: the
document's title or description contains `q` as a case-insensitive
literal substring. -/
def qSubstrSpec (q : String) (d : Doc) : Bool :=
  fieldSubstrSpec "title" q d || fieldSubstrSpec "description" q d

/-- The regular-expression metacharacters of the store's pattern
language. -/
def regexMetachars : List Char :=
  ['.', '^', '$', '*', '+', '?', '(', ')', '[', ']', '\x7b', '\x7d', '|', '\\']

/-- Whether the case-normalized query contains no regular-expression
metacharacter, the class of queries on which a regular-expression
search and a literal substring search agree. -/
def regexLiteralStr (q : String) : Bool :=
  (lowerStr q).data.all (fun c => !(regexMetachars.contains c))

/-- On a dot-free pattern the wildcard match at the head of the text is
the literal comparison. -/
theorem regexMatchAt_eq_startsWith (pat : List Char) (h : ∀ c ∈ pat, c ≠ '.') :
    ∀ t, regexMatchAt pat t = startsWithChars pat t := by
  induction pat with
  | nil => intro t; cases t <;> rfl
  | cons p ps ih =>
      intro t
      cases t with
      | nil => rfl
      | cons c ts =>
          have hp : (p == '.') = false := by
            simp only [beq_eq_false_iff_ne, ne_eq]
            exact h p (List.mem_cons_self p ps)
          have hps : ∀ c2 ∈ ps, c2 ≠ '.' :=
            fun c2 hc2 => h c2 (List.mem_cons_of_mem p hc2)
          simp [regexMatchAt, startsWithChars, hp, ih hps]

/-- On a dot-free pattern the unanchored wildcard search is literal
substring containment. -/
theorem regexSearch_eq_hasSubstr (pat : List Char) (h : ∀ c ∈ pat, c ≠ '.') :
    ∀ t, regexSearch pat t = hasSubstrChars pat t := by
  intro t
  induction t with
  | nil => simp [regexSearch, hasSubstrChars, regexMatchAt_eq_startsWith pat h]
  | cons c ts ih =>
      simp [regexSearch, hasSubstrChars, regexMatchAt_eq_startsWith pat h, ih]

/-! ### Unfolding lemmas for `serialize_doc` -/

theorem convVal_eq_self (v : Value) (h : isDt v = false) : convVal v = v := by
  cases v <;> simp_all [convVal, isDt]

theorem get_ne_nil (k : String) (doc : Doc) (v : Value)
    (h : Doc.get k doc = some v) : doc ≠ [] := by
  intro e
  rw [e] at h
  simp [Doc.get] at h

theorem serialize_doc_eq_oid (doc : Doc) (s : String)
    (h : Doc.get "_id" doc = some (Value.oid s)) :
    serialize_doc doc =
      (Doc.erase "_id" (Doc.set "id" (Value.str s) doc)).map
        (fun kv => (kv.1, convVal kv.2)) := by
  have hne : doc ≠ [] := get_ne_nil _ _ _ h
  simp [serialize_doc, hne, h]

theorem serialize_doc_eq_nonoid (doc : Doc)
    (h : ∀ s, Doc.get "_id" doc ≠ some (Value.oid s)) (hne : doc ≠ []) :
    serialize_doc doc = doc.map (fun kv => (kv.1, convVal kv.2)) := by
  unfold serialize_doc
  rw [if_neg hne]
  cases hid : Doc.get "_id" doc with
  | none => rfl
  | some v =>
      cases v with
      | oid s => exact absurd hid (h s)
      | dt t => rfl
      | str s => rfl
      | num n => rfl
      | bool b => rfl
      | null => rfl

/-- C4: `serialize_doc` replaces an `ObjectId`-valued `_id` field with a
string `id` field and drops `_id`, converts every timestamp-valued
field (outside the `id` slot it writes) to ISO-8601 text, leaves every
other field (outside the `_id`/`id` slots) unchanged, and returns an
empty document unchanged; as a Lean function of its input it is pure by
construction, mirroring the python code's copy of its argument. -/
theorem serialize_doc_spec (doc : Doc) :
    serialize_doc [] = [] ∧
    (∀ s, Doc.get "_id" doc = some (Value.oid s) →
        Doc.get "id" (serialize_doc doc) = some (Value.str s) ∧
        Doc.get "_id" (serialize_doc doc) = none) ∧
    (∀ k t, Doc.get k doc = some (Value.dt t) → k ≠ "id" →
        Doc.get k (serialize_doc doc) = some (Value.str (isoformat t))) ∧
    (∀ k v, Doc.get k doc = some v → k ≠ "_id" → k ≠ "id" → isDt v = false →
        Doc.get k (serialize_doc doc) = some v) := by
  refine ⟨rfl, ?_, ?_, ?_⟩
  · intro s hs
    rw [serialize_doc_eq_oid doc s hs]
    constructor
    · rw [Doc.get_map_conv, Doc.get_erase_other _ _ _ (by decide),
        Doc.get_set_same]
      rfl
    · rw [Doc.get_map_conv, Doc.get_erase_same]
      rfl
  · intro k t hk hkid
    by_cases hid : ∃ s, Doc.get "_id" doc = some (Value.oid s)
    · rcases hid with ⟨s, hs⟩
      have hknid : k ≠ "_id" := by
        intro e
        rw [e, hs] at hk
        exact absurd hk (by simp)
      rw [serialize_doc_eq_oid doc s hs, Doc.get_map_conv,
        Doc.get_erase_other _ _ _ hknid, Doc.get_set_other _ _ _ _ hkid, hk]
      rfl
    · push_neg at hid
      rw [serialize_doc_eq_nonoid doc hid (get_ne_nil _ _ _ hk),
        Doc.get_map_conv, hk]
      rfl
  · intro k v hk hknid hkid hdv
    by_cases hid : ∃ s, Doc.get "_id" doc = some (Value.oid s)
    · rcases hid with ⟨s, hs⟩
      rw [serialize_doc_eq_oid doc s hs, Doc.get_map_conv,
        Doc.get_erase_other _ _ _ hknid, Doc.get_set_other _ _ _ _ hkid, hk]
      simp [convVal_eq_self v hdv]
    · push_neg at hid
      rw [serialize_doc_eq_nonoid doc hid (get_ne_nil _ _ _ hk),
        Doc.get_map_conv, hk]
      simp [convVal_eq_self v hdv]

theorem serialize_doc_spec_witness :
    (Doc.get "id"
        (serialize_doc
          [("_id", Value.oid "652f8a"), ("created_at", Value.dt 3),
           ("title", Value.str "Desk")]) = some (Value.str "652f8a") ∧
      Doc.get "_id"
        (serialize_doc
          [("_id", Value.oid "652f8a"), ("created_at", Value.dt 3),
           ("title", Value.str "Desk")]) = none) ∧
    Doc.get "created_at"
        (serialize_doc
          [("_id", Value.oid "652f8a"), ("created_at", Value.dt 3),
           ("title", Value.str "Desk")]) = some (Value.str (isoformat 3)) ∧
    Doc.get "title"
        (serialize_doc
          [("_id", Value.oid "652f8a"), ("created_at", Value.dt 3),
           ("title", Value.str "Desk")]) = some (Value.str "Desk") :=
  ⟨(serialize_doc_spec
      [("_id", Value.oid "652f8a"), ("created_at", Value.dt 3),
       ("title", Value.str "Desk")]).2.1 "652f8a" (by decide),
    (serialize_doc_spec
      [("_id", Value.oid "652f8a"), ("created_at", Value.dt 3),
       ("title", Value.str "Desk")]).2.2.1 "created_at" 3 (by decide) (by decide),
    (serialize_doc_spec
      [("_id", Value.oid "652f8a"), ("created_at", Value.dt 3),
       ("title", Value.str "Desk")]).2.2.2 "title" (Value.str "Desk")
      (by decide) (by decide) (by decide) (by decide)⟩

/-- C10: on a document whose `_id` value is not an `ObjectId`,
`serialize_doc` keeps the field names exactly as they were (so `_id`
stays under its own name and no `id` field is added) and the `_id`
field is still present, only subjected to the general timestamp
conversion that every field undergoes. -/
theorem serialize_doc_keeps_non_objectid (doc : Doc) (v : Value)
    (h : Doc.get "_id" doc = some v) (hv : isOid v = false) :
    Doc.keys (serialize_doc doc) = Doc.keys doc ∧
    Doc.get "_id" (serialize_doc doc) = some (convVal v) := by
  have hne : doc ≠ [] := get_ne_nil _ _ _ h
  have hno : ∀ s, Doc.get "_id" doc ≠ some (Value.oid s) := by
    intro s e
    rw [h] at e
    cases v <;> simp_all [isOid]
  rw [serialize_doc_eq_nonoid doc hno hne]
  exact ⟨Doc.keys_map_conv doc, by rw [Doc.get_map_conv, h]; rfl⟩

theorem serialize_doc_keeps_non_objectid_witness :
    Doc.keys
        (serialize_doc [("_id", Value.str "plain-id"), ("price", Value.num 5)]) =
      Doc.keys [("_id", Value.str "plain-id"), ("price", Value.num 5)] ∧
    Doc.get "_id"
        (serialize_doc [("_id", Value.str "plain-id"), ("price", Value.num 5)]) =
      some (convVal (Value.str "plain-id")) :=
  serialize_doc_keeps_non_objectid
    [("_id", Value.str "plain-id"), ("price", Value.num 5)]
    (Value.str "plain-id") (by decide) (by decide)

/-- C1: on an enabled store, a CreateOrder payload with an empty items
list makes `create_order` raise the 400 client error before any store
write: the order collection, and the whole store state, are returned
unchanged. -/
theorem create_order_empty_items_400 (d : DB) (p : CreateOrderPayload)
    (h : p.items = []) :
    create_order (some d) p =
      (Except.error ⟨400, "Order must contain at least one item"⟩, some d) := by
  simp [create_order, h]

theorem create_order_empty_items_400_witness :
    create_order (some (DB.mk [] []))
        ⟨[], ⟨"Ann", "ann@example.com", none⟩, none⟩ =
      (Except.error ⟨400, "Order must contain at least one item"⟩,
        some (DB.mk [] [])) :=
  create_order_empty_items_400 (DB.mk [] [])
    ⟨[], ⟨"Ann", "ann@example.com", none⟩, none⟩ rfl

/-- C2: on a store whose product collection is non-empty the seed step
is a no-op, and stays a no-op under any number of repeated invocations
(with arbitrary current times), as triggered by product or category
listing. -/
theorem ensure_seed_nonempty_noop (d : DB) (now : Int)
    (h : 0 < d.product.length) :
    ensure_seed_data (some d) now = some d ∧
    ∀ nows : List Int, List.foldl seedDB d nows = d := by
  have hne : ¬ d.product.length = 0 := by omega
  have hseed : ∀ t : Int, seedDB d t = d := by
    intro t
    simp [seedDB, hne]
  refine ⟨by simp [ensure_seed_data, hseed], ?_⟩
  intro nows
  induction nows with
  | nil => rfl
  | cons t ts ih => simp [List.foldl, hseed, ih]

theorem ensure_seed_nonempty_noop_witness :
    0 < (DB.mk [[("category", Value.str "gaming")]] []).product.length ∧
    ensure_seed_data (some (DB.mk [[("category", Value.str "gaming")]] [])) 7 =
      some (DB.mk [[("category", Value.str "gaming")]] []) ∧
    List.foldl seedDB (DB.mk [[("category", Value.str "gaming")]] [])
        [1, 2, 3] =
      DB.mk [[("category", Value.str "gaming")]] [] :=
  ⟨by decide,
    (ensure_seed_nonempty_noop (DB.mk [[("category", Value.str "gaming")]] [])
      7 (by decide)).1,
    (ensure_seed_nonempty_noop (DB.mk [[("category", Value.str "gaming")]] [])
      7 (by decide)).2 [1, 2, 3]⟩

/-- C3: a product-listing request against an enabled store whose
product collection is empty leaves the store seeded with exactly the 5
sample products, each carrying a price at least 0, a non-empty
category, and the server-assigned `created_at` and `updated_at`
timestamps. -/
theorem seed_empty_inserts_five (d : DB) (now : Int) (cat q : Option String)
    (h : d.product = []) :
    (list_products (some d) cat q now).2 = some (seedDB d now) ∧
    (seedDB d now).product = SAMPLE_PRODUCTS.map (attachMeta now) ∧
    (seedDB d now).product.length = 5 ∧
    ∀ p ∈ (seedDB d now).product,
      (∃ n, Doc.get "price" p = some (Value.num n) ∧ 0 ≤ n) ∧
      (∃ s, Doc.get "category" p = some (Value.str s) ∧ s ≠ "") ∧
      Doc.get "created_at" p = some (Value.dt now) ∧
      Doc.get "updated_at" p = some (Value.dt now) := by
  have hall : SAMPLE_PRODUCTS.all validateSampleProduct = true := by decide
  have hprod : (seedDB d now).product = SAMPLE_PRODUCTS.map (attachMeta now) := by
    simp [seedDB, h, hall]
  refine ⟨?_, hprod, by rw [hprod]; rfl, ?_⟩
  · simp [list_products, ensure_seed_data]
  · rw [hprod]
    intro p hp
    simp only [SAMPLE_PRODUCTS, List.map_cons, List.map_nil, List.mem_cons,
      List.not_mem_nil, or_false] at hp
    rcases hp with hp | hp | hp | hp | hp <;> subst hp <;>
      exact ⟨⟨_, rfl, by decide⟩, ⟨_, rfl, by decide⟩, rfl, rfl⟩

theorem seed_empty_inserts_five_witness :
    (DB.mk [] []).product = [] ∧
    (list_products (some (DB.mk [] [])) none none 11).2 =
      some (seedDB (DB.mk [] []) 11) ∧
    (seedDB (DB.mk [] []) 11).product.length = 5 :=
  ⟨rfl, (seed_empty_inserts_five (DB.mk [] []) 11 none none rfl).1,
    (seed_empty_inserts_five (DB.mk [] []) 11 none none rfl).2.2.1⟩

/-- C5 counterexample: on a store holding one product whose stored
category is the literal "all", the category listing returns a list with
a duplicate entry, refuting the claim that its output never contains
duplicate category names. -/
theorem list_categories_duplicate_all :
    (list_categories (some (DB.mk [[("category", Value.str "all")]] [])) 0).1 =
      Except.ok ["all", "all"] ∧
    ¬ List.Nodup ["all", "all"] := by
  exact ⟨by decide, by decide⟩

/-- C5 amended: the category listing always returns the literal "all"
followed by the distinct stored categories in sorted order; the list is
duplicate-free provided no stored category is itself the literal "all"
(the code prepends "all" without checking for an equal stored value). -/
theorem list_categories_sorted_distinct (d : DB) (now : Int)
    (h : "all" ∉ distinctCategories (seedDB d now).product) :
    ∃ cats,
      (list_categories (some d) now).1 = Except.ok ("all" :: cats) ∧
      List.Sorted strLeRel cats ∧
      (∀ c, c ∈ cats ↔ c ∈ distinctCategories (seedDB d now).product) ∧
      List.Nodup ("all" :: cats) := by
  refine ⟨List.insertionSort strLeRel (distinctCategories (seedDB d now).product),
    ?_, List.sorted_insertionSort strLeRel _, ?_, ?_⟩
  · simp [list_categories, ensure_seed_data]
  · intro c
    exact List.mem_insertionSort strLeRel
  · rw [List.nodup_cons]
    refine ⟨fun hmem => h ((List.mem_insertionSort strLeRel).mp hmem), ?_⟩
    exact ((List.perm_insertionSort strLeRel _).nodup_iff).mpr
      (List.nodup_dedup _)

theorem list_categories_sorted_distinct_witness :
    "all" ∉ distinctCategories (seedDB (DB.mk [] []) 0).product ∧
    ∃ cats,
      (list_categories (some (DB.mk [] [])) 0).1 = Except.ok ("all" :: cats) ∧
      List.Sorted strLeRel cats ∧
      (∀ c, c ∈ cats ↔ c ∈ distinctCategories (seedDB (DB.mk [] []) 0).product) ∧
      List.Nodup ("all" :: cats) :=
  ⟨by decide, list_categories_sorted_distinct (DB.mk [] []) 0 (by decide)⟩

/-- C6: passing category equal to "all" in any letter case to the
product listing yields exactly the same outcome (result and store
state) as passing no category at all, for every store state and every
text query. -/
theorem list_products_category_all_eq (dbo : Option DB) (q : Option String)
    (now : Int) (c : String) (h : lowerStr c = "all") :
    list_products dbo (some c) q now = list_products dbo none q now := by
  have hcf : categoryFilter (some c) = categoryFilter none := by
    by_cases hc : c = ""
    · subst hc
      exact absurd h (by decide)
    · simp [categoryFilter, hc, h]
  simp [list_products, hcf]

theorem list_products_category_all_eq_witness :
    lowerStr "ALL" = "all" ∧
    list_products
        (some (DB.mk [[("category", Value.str "gaming"),
                       ("created_at", Value.dt 1)]] []))
        (some "ALL") none 0 =
      list_products
        (some (DB.mk [[("category", Value.str "gaming"),
                       ("created_at", Value.dt 1)]] []))
        none none 0 :=
  ⟨by decide,
    list_products_category_all_eq
      (some (DB.mk [[("category", Value.str "gaming"),
                     ("created_at", Value.dt 1)]] []))
      none 0 "ALL" (by decide)⟩

/-- C7 counterexample: the query text is handed to the store as a
regular-expression pattern, not escaped.  With q = "a.c" the listing
returns the product titled "abc" (the dot matches any character), yet
"abc" does not contain "a.c" as a literal substring, refuting the claim
that the result is exactly the documents containing q literally. -/
theorem list_products_regex_metachar :
    (list_products
        (some (DB.mk [[("_id", Value.oid "x1"), ("title", Value.str "abc"),
                       ("category", Value.str "gaming"),
                       ("created_at", Value.dt 0)]] []))
        none (some "a.c") 0).1 =
      Except.ok [[("title", Value.str "abc"), ("category", Value.str "gaming"),
                  ("created_at", Value.str (isoformat 0)),
                  ("id", Value.str "x1")]] ∧
    qSubstrSpec "a.c"
        [("title", Value.str "abc"), ("category", Value.str "gaming"),
         ("created_at", Value.str (isoformat 0)), ("id", Value.str "x1")] =
      false ∧
    qSubstrSpec "a.c"
        [("_id", Value.oid "x1"), ("title", Value.str "abc"),
         ("category", Value.str "gaming"), ("created_at", Value.dt 0)] =
      false := by
  exact ⟨by decide, by decide, by decide⟩

/-- C7 amended: for every query string free of regular-expression
metacharacters, the product listing with parameter q returns exactly
the serializations of the stored (post-seed) documents whose title or
description contains q as a case-insensitive literal substring. -/
theorem list_products_substring_search (d : DB) (now : Int) (q : String)
    (hq : q ≠ "") (hlit : regexLiteralStr q = true) :
    ∃ l, (list_products (some d) none (some q) now).1 = Except.ok l ∧
      ∀ doc, doc ∈ l ↔
        ∃ s, s ∈ (seedDB d now).product ∧ qSubstrSpec q s = true ∧
          doc = serialize_doc s := by
  have hdot : ∀ c ∈ (lowerStr q).data, c ≠ '.' := by
    intro c hc e
    have h1 := List.all_eq_true.mp hlit c hc
    subst e
    rw [show regexMetachars.contains '.' = true from by decide] at h1
    simp at h1
  have hfield : ∀ (k : String) (dd : Doc),
      fieldRegexMatch k q dd = fieldSubstrSpec k q dd := by
    intro k dd
    unfold fieldRegexMatch fieldSubstrSpec
    cases Doc.get k dd with
    | none => rfl
    | some v =>
        cases v with
        | str s => exact regexSearch_eq_hasSubstr _ hdot _
        | oid s => rfl
        | dt t => rfl
        | num n => rfl
        | bool b => rfl
        | null => rfl
  have hdm : ∀ dd : Doc, docMatches none (some q) dd = qSubstrSpec q dd := by
    intro dd
    simp [docMatches, qMatches, qSubstrSpec, hfield]
  have heq : (list_products (some d) none (some q) now).1 =
      Except.ok
        ((List.insertionSort (fun a b => createdAtOf b ≤ createdAtOf a)
          ((seedDB d now).product.filter
            (fun doc => docMatches none (some q) doc))).map serialize_doc) := by
    simp [list_products, ensure_seed_data, categoryFilter, hq]
  refine ⟨_, heq, ?_⟩
  intro doc
  constructor
  · intro hdoc
    rcases List.mem_map.mp hdoc with ⟨s, hs, rfl⟩
    have hs2 := (List.mem_insertionSort _).mp hs
    rcases List.mem_filter.mp hs2 with ⟨hmem, hcond⟩
    rw [hdm s] at hcond
    exact ⟨s, hmem, hcond, rfl⟩
  · rintro ⟨s, hmem, hsub, rfl⟩
    refine List.mem_map.mpr ⟨s, ?_, rfl⟩
    refine (List.mem_insertionSort _).mpr ?_
    refine List.mem_filter.mpr ⟨hmem, ?_⟩
    rw [hdm s]
    exact hsub

theorem list_products_substring_search_witness :
    ("monitor" ≠ "" ∧ regexLiteralStr "monitor" = true) ∧
    (∃ l,
      (list_products
          (some (DB.mk [[("title", Value.str "4K Monitor"),
                         ("category", Value.str "gaming"),
                         ("created_at", Value.dt 1)]] []))
          none (some "monitor") 0).1 = Except.ok l ∧
      ∀ doc, doc ∈ l ↔
        ∃ s,
          s ∈ (seedDB (DB.mk [[("title", Value.str "4K Monitor"),
                               ("category", Value.str "gaming"),
                               ("created_at", Value.dt 1)]] []) 0).product ∧
          qSubstrSpec "monitor" s = true ∧ doc = serialize_doc s) :=
  ⟨⟨by decide, by decide⟩,
    list_products_substring_search
      (DB.mk [[("title", Value.str "4K Monitor"),
               ("category", Value.str "gaming"),
               ("created_at", Value.dt 1)]] [])
      0 "monitor" (by decide) (by decide)⟩

/-- C8: the diagnostics endpoint always yields an HTTP 200 response
(`Except.ok`), for every store condition including a disabled store and
a failing collection-listing call; a store error is rendered inside the
body as a descriptive string carrying the error text truncated to at
most 80 characters, never as a failing status code. -/
theorem test_database_always_ok :
    (∀ (u : Bool) (dbs : DiagDB), ∃ r, test_database u dbs = Except.ok r) ∧
    (∀ (u : Bool) (name : Option String) (e : String),
        test_database u (DiagDB.conn name (Except.error e)) =
          Except.ok
            ⟨"✅ Running", "⚠️  Connected but Error: " ++ strTake 80 e,
              some (if u then "✅ Set" else "❌ Not Set"),
              some (match name with | some n => n | none => "✅ Connected"),
              "Connected", []⟩ ∧
        (strTake 80 e).length ≤ 80) := by
  constructor
  · intro u dbs
    cases dbs with
    | disabled => exact ⟨_, rfl⟩
    | conn name colls => cases colls <;> exact ⟨_, rfl⟩
  · intro u name e
    refine ⟨rfl, ?_⟩
    have h1 : (strTake 80 e).length = (e.data.take 80).length := rfl
    rw [h1, List.length_take]
    omega

/-- C9 counterexample: schema validation of a CreateOrder payload with
an empty items list succeeds (pydantic's `List[OrderItem]` carries no
minimum-length constraint), refuting the claim that schema validation
by itself rejects an empty items list. -/
theorem createorder_schema_accepts_empty :
    validateCreateOrder ⟨[], ⟨"Eve", "eve@example.org", none⟩, none⟩ = true := by
  decide

/-- C9 amended: schema validation of a CreateOrder payload does not by
itself reject an empty items list: a payload with no items passes
validation whenever its customer email is valid; the rejection of empty
item lists comes solely from the endpoint's explicit check. -/
theorem createorder_schema_no_min_items (c : CustomerPayload)
    (note : Option String) (h : isEmailStr c.email = true) :
    validateCreateOrder ⟨[], c, note⟩ = true := by
  simp [validateCreateOrder, h]

theorem createorder_schema_no_min_items_witness :
    isEmailStr "bob@shop.io" = true ∧
    validateCreateOrder
        ⟨[], ⟨"Bob", "bob@shop.io", none⟩, some "gift wrap"⟩ = true :=
  ⟨by decide,
    createorder_schema_no_min_items ⟨"Bob", "bob@shop.io", none⟩
      (some "gift wrap") (by decide)⟩
